import Mathlib

/-!
Verification of the spin-vm provisioning front-end (src/spin-vm.py).

The development shallowly embeds the script's decision logic:

* string/path helpers mirroring the `os.path` operations the script uses
  (`basename`, `dirname`, `join`) and Python's `str.replace(".iso", "")`;
* the derived artifact paths (`disk_path`, `vars_path`, lines 166-168);
* the QEMU argument lists and the post-install re-run filter (lines 171-229);
* `main`'s control flow as a pure function from the session's external
  inputs (dialog outcomes, filesystem existence checks) to the ordered
  list of filesystem effects and the final outcome;
* the filesystem browser `browse_path` (choice-list construction and the
  per-iteration step/loop, lines 91-138);
* the dialog wrappers (lines 52-89).
-/

namespace SpinVM

/-- The backend binary name, `qemu-system-x86_64` (line 8). -/
def QEMU_BIN : String := "qemu-system-x86_64"

/-- Fixed UEFI firmware code path (line 9). -/
def OVMF_CODE : String := "/usr/share/OVMF/OVMF_CODE_4M.fd"

/-- Fixed UEFI firmware variables template path (line 10). -/
def OVMF_VARS_TEMPLATE : String := "/usr/share/OVMF/OVMF_VARS_4M.fd"

/-- Python `s.replace(".iso", "")` on the character list: scan left to
right, deleting each (non-overlapping) occurrence of `.iso`. -/
def stripIso : List Char → List Char
  | '.' :: 'i' :: 's' :: 'o' :: rest => stripIso rest
  | c :: rest => c :: stripIso rest
  | [] => []

/-- Python `s.replace(".iso", "")` on strings. -/
def pyReplaceIso (s : String) : String := ⟨stripIso s.data⟩

/-- Helper for `basename`: accumulate the current path segment (reversed),
resetting at each separator; the final segment is the base name. -/
def basenameAux : List Char → List Char → List Char
  | [], acc => acc.reverse
  | '/' :: rest, _ => basenameAux rest []
  | c :: rest, acc => basenameAux rest (c :: acc)

/-- Model of `os.path.basename`: the part of the path after the last `/`
(empty when the path ends in `/`). -/
def basename (s : String) : String := ⟨basenameAux s.data []⟩

/-- First character of a string, if any. -/
def firstChar (s : String) : Option Char := s.data.head?

/-- Does the string start with the path separator (i.e. is it absolute)? -/
def startsWithSlash (s : String) : Bool := s.data.head? == some '/'

/-- Does the string end with the path separator? -/
def endsWithSlash (s : String) : Bool := s.data.getLast? == some '/'

/-- Model of `os.path.join a b` for POSIX paths: an absolute second component
replaces the first; otherwise concatenate, inserting `/` unless the first
component is empty or already ends in `/`. -/
def pyJoin (a b : String) : String :=
  if startsWithSlash b then b
  else if a = "" || endsWithSlash a then a ++ b
  else a ++ "/" ++ b

/-- Model of `os.path.dirname`: everything before the last `/`, with trailing
separators stripped unless the result is all separators. -/
def dirname (s : String) : String :=
  let head := (s.data.reverse.dropWhile (fun c => c != '/')).reverse
  if head ≠ [] ∧ head.any (fun c => c != '/') then
    ⟨(head.reverse.dropWhile (fun c => c == '/')).reverse⟩
  else ⟨head⟩

/-- Line 166, `disk_name`: medium base name with every `.iso` occurrence
removed, then an optional `.uefi` tag, then `.qcow2`. -/
def disk_name (iso_path : String) (is_uefi : Bool) : String :=
  pyReplaceIso (basename iso_path) ++ (if is_uefi then ".uefi" else "") ++ ".qcow2"

/-- Line 167, `disk_path`: the disk image location inside the chosen
storage directory. -/
def disk_path (vm_dir iso_path : String) (is_uefi : Bool) : String :=
  pyJoin vm_dir (disk_name iso_path is_uefi)

/-- Line 168, `vars_path`: the per-VM UEFI variables file location. -/
def vars_path (vm_dir iso_path : String) : String :=
  pyJoin vm_dir ("OVMF_VARS_" ++ pyReplaceIso (basename iso_path) ++ ".fd")

/-- The base QEMU argument list (lines 171-181), parameterised by the
derived disk path used in the virtio drive argument. -/
def baseArgs (dp : String) : List String :=
  [QEMU_BIN,
   "-enable-kvm",
   "-m", "2048",
   "-smp", "4",
   "-cpu", "host",
   "-drive", "file=" ++ dp ++ ",format=qcow2,if=virtio",
   "-netdev", "user,id=net0",
   "-device", "virtio-net-pci,netdev=net0",
   "-display", "gtk"]

/-- The two pflash drive arguments appended in UEFI mode (lines 183-187). -/
def uefiArgs (vp : String) : List String :=
  ["-drive", "if=pflash,format=raw,readonly=on,file=" ++ OVMF_CODE,
   "-drive", "if=pflash,format=raw,file=" ++ vp]

/-- The argument list common to both modes: base arguments plus, in UEFI
mode, the firmware drives (state of `qemu_args` after line 187). -/
def sessionArgs (vm_dir iso_path : String) (is_uefi : Bool) : List String :=
  baseArgs (disk_path vm_dir iso_path is_uefi) ++
    (if is_uefi then uefiArgs (vars_path vm_dir iso_path) else [])

/-- The install-mode argument list (after line 207): common arguments plus
the optical drive and the optical-first boot order. -/
def installArgs (vm_dir iso_path : String) (is_uefi : Bool) : List String :=
  sessionArgs vm_dir iso_path is_uefi ++ ["-cdrom", iso_path, "-boot", "order=d"]

/-- The run-mode argument list (after line 215): common arguments plus the
disk-first boot order. -/
def runArgs (vm_dir iso_path : String) (is_uefi : Bool) : List String :=
  sessionArgs vm_dir iso_path is_uefi ++ ["-boot", "order=c"]

/-- The list-comprehension filter of line 227: drop every argument equal to
`-cdrom`, the medium path, `order=d`, or `-boot`. -/
def rerunFilter (iso_path : String) (args : List String) : List String :=
  args.filter (fun a => !(a == "-cdrom" || a == iso_path || a == "order=d" || a == "-boot"))

/-- The re-derived argument list for the post-install boot
(lines 227-228): filter out the install-only arguments, then append the
disk-first boot order. -/
def new_args (args : List String) (iso_path : String) : List String :=
  rerunFilter iso_path args ++ ["-boot", "order=c"]

/-- One filesystem side effect performed by the script. -/
inductive Effect where
  /-- Line 155, `os.makedirs(vm_dir, exist_ok=True)`. -/
  | makedirs (d : String)
  /-- Lines 195 and 204, `os.remove(p)`. -/
  | removeFile (p : String)
  /-- Line 200, `qemu-img create -f qcow2 p size`. -/
  | createQcow2 (p : String) (size : String)
  /-- Line 205, `shutil.copy(src, dst)`. -/
  | copyFile (src dst : String)
deriving DecidableEq, Repr

/-- How a session ends: a `sys.exit` with a code, or one QEMU launch with
an argument list, optionally followed by a second (re-run) launch. -/
inductive Outcome where
  | exit (code : Nat)
  | launched (args : List String) (rerun : Option (List String))
deriving DecidableEq, Repr

/-- The external inputs a session consumes: the results of the interactive
prompts and of the filesystem existence checks that `main` performs. -/
structure Env where
  /-- Result of the medium-selection browse (`iso_path`, line 144); `none`
  is cancellation. -/
  isoSelection : Option String
  /-- Line 147, `os.path.isfile(iso_path)`. -/
  isoIsFile : Bool
  /-- Result of the storage-directory browse (`vm_dir`, line 152); `none`
  is cancellation. -/
  dirSelection : Option String
  /-- Result of the firmware-mode yes/no dialog (`is_uefi`, line 158). -/
  uefiAnswer : Bool
  /-- Result of the action menu (`mode`, line 161); `none` is cancellation. -/
  modeSelection : Option String
  /-- Lines 193 and 210, `os.path.exists(disk_path)`. -/
  diskExists : Bool
  /-- Line 203, `os.path.exists(vars_path)`. -/
  varsExists : Bool
  /-- Result of the overwrite yes/no dialog (line 194). -/
  overwriteAnswer : Bool
  /-- Result of the post-install re-run yes/no dialog (line 223). -/
  rerunAnswer : Bool
deriving DecidableEq, Repr

/-- The script entry point `main` (lines 140-229) as a pure function from the session's external
inputs to the ordered list of filesystem effects it performs and the final
outcome, following the source line by line. -/
def main (env : Env) : List Effect × Outcome :=
  match env.isoSelection with
  | none => ([], .exit 0)
  | some iso_path =>
    if iso_path = "" then ([], .exit 0)
    else if env.isoIsFile = false then ([], .exit 1)
    else
      match env.dirSelection with
      | none => ([], .exit 0)
      | some vm_dir =>
        if vm_dir = "" then ([], .exit 0)
        else
          let is_uefi := env.uefiAnswer
          match env.modeSelection with
          | none => ([Effect.makedirs vm_dir], .exit 1)
          | some mode =>
            if mode = "" then ([Effect.makedirs vm_dir], .exit 1)
            else
              let dp := disk_path vm_dir iso_path is_uefi
              let vp := vars_path vm_dir iso_path
              let qemu_args := sessionArgs vm_dir iso_path is_uefi
              if mode = "install" then
                if env.diskExists ∧ env.overwriteAnswer = false then
                  ([Effect.makedirs vm_dir], .exit 1)
                else
                  let effects :=
                    [Effect.makedirs vm_dir] ++
                    (if env.diskExists then [Effect.removeFile dp] else []) ++
                    [Effect.createQcow2 dp "20G"] ++
                    (if is_uefi then
                      (if env.varsExists then [Effect.removeFile vp] else []) ++
                      [Effect.copyFile OVMF_VARS_TEMPLATE vp]
                     else [])
                  let args := qemu_args ++ ["-cdrom", iso_path, "-boot", "order=d"]
                  (effects,
                   .launched args
                     (if env.rerunAnswer then some (new_args args iso_path) else none))
              else
                if env.diskExists = false then ([Effect.makedirs vm_dir], .exit 1)
                else ([Effect.makedirs vm_dir],
                      .launched (qemu_args ++ ["-boot", "order=c"]) none)

/-- Python's `<=` on strings: code-point lexicographic comparison of the
character sequences. -/
def charListLe : List Char → List Char → Bool
  | [], _ => true
  | _ :: _, [] => false
  | a :: as, b :: bs =>
    if a < b then true
    else if a = b then charListLe as bs
    else false

/-- Python's `<=` on strings. -/
def pyStrLe (a b : String) : Bool := charListLe a.data b.data

/-- Python's `sorted` on strings: the stable lexicographically ascending
permutation (modelled by insertion sort, which is stable). -/
def sortStrings (l : List String) : List String :=
  l.insertionSort (fun a b => pyStrLe a b = true)

/-- The ordered `(tag, label)` choice list one `browse_path` iteration
presents (lines 104-118): the optional select-here marker, the go-up
marker, the sorted directories tagged with a trailing `/`, then the sorted
files. `dirs` and `files` are the directory listing already classified by
`os.path.isdir` / `os.path.isfile`. -/
def browse_path_choices (select_dir : Bool) (dirs files : List String)
    (current_path : String) : List (String × String) :=
  (if select_dir then
    [(".", "--> SELECT THIS DIRECTORY: " ++ current_path ++ " <--")]
   else []) ++
  [("..", "../ (Go Up)")] ++
  (sortStrings dirs).map (fun d => (d ++ "/", "(Dir)")) ++
  (sortStrings files).map (fun f => (f, "(File)"))

/-- What one `browse_path` iteration consumes: either `os.listdir` raises
`PermissionError`, or it succeeds (its entries classified into directories
and files) and the menu returns a selection (`none` is cancellation). -/
inductive BrowseInput where
  | permissionDenied
  | listing (dirs files : List String) (selection : Option String)
deriving DecidableEq, Repr

/-- Result of one `browse_path` iteration: continue the loop at a (possibly
different) current path, or terminate with `some` selected path or `none`
for cancellation. -/
inductive StepResult where
  | next (newPath : String)
  | done (result : Option String)
deriving DecidableEq, Repr

/-- One iteration of the `browse_path` loop (lines 96-138): a permission
failure shows a notice and moves to the parent directory; otherwise the
menu selection is dispatched on the tag conventions (`.`, `..`, trailing
`/`, plain file name). -/
def browse_path_step (select_dir : Bool) (current_path : String)
    (input : BrowseInput) : StepResult :=
  match input with
  | .permissionDenied => .next (dirname current_path)
  | .listing _ _ selection =>
    match selection with
    | none => .done none
    | some sel =>
      if sel = "." then .done (some current_path)
      else if sel = ".." then .next (dirname current_path)
      else if endsWithSlash sel then .next (pyJoin current_path ⟨sel.data.dropLast⟩)
      else if select_dir then .next current_path
      else .done (some (pyJoin current_path sel))

/-- The `browse_path` loop driven by a finite trace of per-iteration
inputs; `none` means the trace ended with the loop still running. -/
def browse_path_loop (select_dir : Bool) :
    String → List BrowseInput → Option (Option String)
  | _, [] => none
  | p, i :: rest =>
    match browse_path_step select_dir p i with
    | .next p' => browse_path_loop select_dir p' rest
    | .done r => some r

/-- The observable outcome of one renderer subprocess call: its exit code
and what it wrote to its error stream. -/
structure RendererExit where
  returncode : Nat
  errText : String
deriving DecidableEq, Repr

/-- Lines 52-58, `dialog_input`: the stripped error-stream text on exit
code 0, otherwise `None`. -/
def dialog_input (r : RendererExit) : Option String :=
  if r.returncode = 0 then some r.errText.trim else none

/-- Lines 60-65, `dialog_fselect`. -/
def dialog_fselect (r : RendererExit) : Option String :=
  if r.returncode = 0 then some r.errText.trim else none

/-- Lines 67-72, `dialog_dselect`. -/
def dialog_dselect (r : RendererExit) : Option String :=
  if r.returncode = 0 then some r.errText.trim else none

/-- Lines 74-84, `dialog_menu`. -/
def dialog_menu (r : RendererExit) : Option String :=
  if r.returncode = 0 then some r.errText.trim else none

/-- Lines 86-89, `dialog_yesno`: `True` exactly on exit code 0; any
cancel/no exit collapses to `False`. -/
def dialog_yesno (r : RendererExit) : Bool :=
  r.returncode = 0

/-- Claim-side reading of "base name with its extension stripped": drop the
final `.` and everything after it when the name contains a dot (as
`os.path.splitext` would). Used only to compare the claimed naming formula
with the source's. -/
def specStripExt (s : String) : String :=
  if s.data.contains '.' then
    ⟨((s.data.reverse.dropWhile (fun c => c != '.')).drop 1).reverse⟩
  else s

/-- The Invocation Builder as the spec words it (section 4.4): a pure
mapping from the gathered selections, the filesystem existence checks and
the overwrite confirmation to either an abort (`none`) or a plan — the
ordered filesystem side effects plus the backend argument list. -/
def specBuild (iso_path vm_dir : String) (is_uefi install_mode : Bool)
    (diskExists varsExists overwriteConfirm : Bool) :
    Option (List Effect × List String) :=
  if install_mode then
    if diskExists ∧ overwriteConfirm = false then none
    else
      some ((if diskExists then
               [Effect.removeFile (disk_path vm_dir iso_path is_uefi)]
             else []) ++
            [Effect.createQcow2 (disk_path vm_dir iso_path is_uefi) "20G"] ++
            (if is_uefi then
               (if varsExists then [Effect.removeFile (vars_path vm_dir iso_path)] else []) ++
               [Effect.copyFile OVMF_VARS_TEMPLATE (vars_path vm_dir iso_path)]
             else []),
            installArgs vm_dir iso_path is_uefi)
  else
    if diskExists = false then none
    else some ([], runArgs vm_dir iso_path is_uefi)

end SpinVM

namespace SpinVM

example : pyReplaceIso "ubuntu-24.04.iso" = "ubuntu-24.04" := by decide
example : pyReplaceIso "foo.img" = "foo.img" := by decide
example : basename "/media/ubuntu-24.04.iso" = "ubuntu-24.04.iso" := by decide
example : disk_path "/vms/ubuntu" "/media/ubuntu-24.04.iso" false = "/vms/ubuntu/ubuntu-24.04.qcow2" := by decide
example : disk_path "/vms/ubuntu" "/media/ubuntu-24.04.iso" true = "/vms/ubuntu/ubuntu-24.04.uefi.qcow2" := by decide
example : vars_path "/vms/ubuntu" "/media/ubuntu-24.04.iso" = "/vms/ubuntu/OVMF_VARS_ubuntu-24.04.fd" := by decide
example : dirname "/a/b" = "/a" := by decide
example : dirname "/" = "/" := by decide
example : dirname "a" = "" := by decide

/-! ### Helper lemmas -/

theorem firstChar_append_eq (s t : String) (h : s.data ≠ []) :
    firstChar (s ++ t) = firstChar s := by
  simp only [firstChar, String.data_append]
  cases hs : s.data with
  | nil => exact absurd hs h
  | cons a as => simp

theorem ne_of_firstChar {a b : String} (h : firstChar a ≠ firstChar b) : a ≠ b :=
  fun e => h (by rw [e])

theorem data_append_ne_nil (s t : String) (h : s.data ≠ []) : (s ++ t).data ≠ [] := by
  rw [String.data_append]
  intro hh
  exact h (List.append_eq_nil.mp hh).1

theorem firstChar_append2 (s t r : String) (h : s.data ≠ []) :
    firstChar (s ++ t ++ r) = firstChar s := by
  rw [firstChar_append_eq (s ++ t) r (data_append_ne_nil s t h), firstChar_append_eq s t h]

theorem keepPred_of_ne {i a : String} (h1 : a ≠ "-cdrom") (h2 : a ≠ i)
    (h3 : a ≠ "order=d") (h4 : a ≠ "-boot") :
    (!(a == "-cdrom" || a == i || a == "order=d" || a == "-boot")) = true := by
  simp only [Bool.not_eq_eq_eq_not, Bool.not_true, Bool.or_eq_false_iff,
    beq_eq_false_iff_ne]
  exact ⟨⟨⟨h1, h2⟩, h3⟩, h4⟩

theorem sessionArgs_ne (v i : String) (u : Bool) (hiso : firstChar i = some '/') :
    ∀ a ∈ sessionArgs v i u,
      a ≠ "-cdrom" ∧ a ≠ i ∧ a ≠ "order=d" ∧ a ≠ "-boot" := by
  intro a ha
  cases u with
  | false =>
    simp only [sessionArgs, baseArgs, uefiArgs, QEMU_BIN, OVMF_CODE,
      Bool.false_eq_true, ite_false, if_neg, reduceIte,
      List.append_nil, List.mem_append, List.mem_cons,
      List.not_mem_nil, or_false] at ha
    rcases ha with rfl|rfl|rfl|rfl|rfl|rfl|rfl|rfl|rfl|rfl|rfl|rfl|rfl|rfl|rfl|rfl <;>
    first
      | exact ⟨by decide, ne_of_firstChar (by rw [hiso]; decide), by decide, by decide⟩
      | exact ⟨ne_of_firstChar (by rw [firstChar_append2 "file=" _ _ (by decide)]; decide),
               ne_of_firstChar (by rw [firstChar_append2 "file=" _ _ (by decide), hiso]; decide),
               ne_of_firstChar (by rw [firstChar_append2 "file=" _ _ (by decide)]; decide),
               ne_of_firstChar (by rw [firstChar_append2 "file=" _ _ (by decide)]; decide)⟩
  | true =>
    simp only [sessionArgs, baseArgs, uefiArgs, QEMU_BIN, OVMF_CODE,
      ite_true, if_pos, reduceIte,
      List.append_nil, List.mem_append, List.mem_cons,
      List.not_mem_nil, or_false] at ha
    rcases ha with ha | ha
    · rcases ha with rfl|rfl|rfl|rfl|rfl|rfl|rfl|rfl|rfl|rfl|rfl|rfl|rfl|rfl|rfl|rfl <;>
      first
        | exact ⟨by decide, ne_of_firstChar (by rw [hiso]; decide), by decide, by decide⟩
        | exact ⟨ne_of_firstChar (by rw [firstChar_append2 "file=" _ _ (by decide)]; decide),
                 ne_of_firstChar (by rw [firstChar_append2 "file=" _ _ (by decide), hiso]; decide),
                 ne_of_firstChar (by rw [firstChar_append2 "file=" _ _ (by decide)]; decide),
                 ne_of_firstChar (by rw [firstChar_append2 "file=" _ _ (by decide)]; decide)⟩
    · rcases ha with rfl|rfl|rfl|rfl <;>
      first
        | exact ⟨by decide, ne_of_firstChar (by rw [hiso]; decide), by decide, by decide⟩
        | exact ⟨ne_of_firstChar
                   (by rw [firstChar_append_eq "if=pflash,format=raw,file=" _ (by decide)]; decide),
                 ne_of_firstChar
                   (by rw [firstChar_append_eq "if=pflash,format=raw,file=" _ (by decide), hiso]; decide),
                 ne_of_firstChar
                   (by rw [firstChar_append_eq "if=pflash,format=raw,file=" _ (by decide)]; decide),
                 ne_of_firstChar
                   (by rw [firstChar_append_eq "if=pflash,format=raw,file=" _ (by decide)]; decide)⟩

theorem rerunFilter_sessionArgs (v i : String) (u : Bool)
    (hiso : firstChar i = some '/') :
    rerunFilter i (sessionArgs v i u) = sessionArgs v i u := by
  apply List.filter_eq_self.mpr
  intro a ha
  obtain ⟨h1, h2, h3, h4⟩ := sessionArgs_ne v i u hiso a ha
  exact keepPred_of_ne h1 h2 h3 h4

theorem rerunFilter_append (i : String) (xs ys : List String) :
    rerunFilter i (xs ++ ys) = rerunFilter i xs ++ rerunFilter i ys := by
  simp [rerunFilter, List.filter_append]

theorem stripIso_subset : ∀ cs, stripIso cs ⊆ cs := by
  intro cs
  induction cs using stripIso.induct with
  | case1 rest ih =>
    intro x hx
    rw [show stripIso ('.' :: 'i' :: 's' :: 'o' :: rest) = stripIso rest from rfl] at hx
    exact List.mem_cons_of_mem _ (List.mem_cons_of_mem _ (List.mem_cons_of_mem _
      (List.mem_cons_of_mem _ (ih hx))))
  | case2 c rest hside ih =>
    intro x hx
    rw [stripIso.eq_2 c rest hside] at hx
    rcases List.mem_cons.mp hx with rfl | hx
    · exact List.mem_cons_self _ _
    · exact List.mem_cons_of_mem _ (ih hx)
  | case3 => intro x hx; exact hx

theorem basenameAux_no_slash : ∀ cs acc, '/' ∉ acc → '/' ∉ basenameAux cs acc := by
  intro cs acc
  induction cs, acc using basenameAux.induct with
  | case1 acc =>
    intro h hx
    rw [show basenameAux [] acc = acc.reverse from rfl] at hx
    exact h (List.mem_reverse.mp hx)
  | case2 rest x ih =>
    intro _
    rw [show basenameAux ('/' :: rest) x = basenameAux rest [] from rfl]
    exact ih (by simp)
  | case3 c rest acc hside ih =>
    intro h
    rw [basenameAux.eq_3 acc c rest hside]
    exact ih (by
      intro hx
      rcases List.mem_cons.mp hx with rfl | hx
      · exact hside rfl
      · exact h hx)

theorem basename_no_slash (s : String) : '/' ∉ (basename s).data :=
  basenameAux_no_slash s.data [] (by simp)

theorem pyReplaceIso_no_slash (s : String) (h : '/' ∉ s.data) :
    '/' ∉ (pyReplaceIso s).data :=
  fun hx => h (stripIso_subset _ hx)

theorem startsWithSlash_eq_false (s : String) (h : '/' ∉ s.data) :
    startsWithSlash s = false := by
  rw [startsWithSlash, beq_eq_false_iff_ne]
  cases hs : s.data with
  | nil => simp
  | cons c cs =>
    simp only [List.head?]
    intro he
    rw [Option.some.injEq] at he
    exact h (by rw [hs, he]; exact List.mem_cons_self _ _)

theorem disk_name_no_slash (iso_path : String) (u : Bool) :
    '/' ∉ (disk_name iso_path u).data := by
  rw [disk_name]
  simp only [String.data_append, List.mem_append, not_or]
  refine ⟨⟨pyReplaceIso_no_slash _ (basename_no_slash iso_path), ?_⟩, by decide⟩
  cases u <;> decide

theorem pyJoin_eq (a b : String) (ha1 : a ≠ "") (ha2 : endsWithSlash a = false)
    (hb : startsWithSlash b = false) : pyJoin a b = a ++ "/" ++ b := by
  rw [pyJoin, hb]
  simp [ha1, ha2]

theorem charListLe_total : ∀ as bs, charListLe as bs = true ∨ charListLe bs as = true := by
  intro as
  induction as with
  | nil => intro bs; left; rfl
  | cons a as ih =>
    intro bs
    cases bs with
    | nil => right; rfl
    | cons b bs =>
      by_cases hab : a < b
      · left; simp [charListLe, hab]
      · by_cases hba : b < a
        · right; simp [charListLe, hba]
        · have hEq : a = b := le_antisymm (le_of_not_lt hba) (le_of_not_lt hab)
          subst hEq
          rcases ih bs with h | h
          · left; simp [charListLe, lt_irrefl, h]
          · right; simp [charListLe, lt_irrefl, h]

theorem charListLe_trans :
    ∀ as bs cs, charListLe as bs = true → charListLe bs cs = true →
      charListLe as cs = true := by
  intro as
  induction as with
  | nil => intro bs cs _ _; rfl
  | cons a as ih =>
    intro bs cs h1 h2
    cases bs with
    | nil => simp [charListLe] at h1
    | cons b bs =>
      cases cs with
      | nil => simp [charListLe] at h2
      | cons c cs =>
        rw [charListLe] at h1 h2 ⊢
        by_cases hab : a < b
        · by_cases hbc : b < c
          · rw [if_pos (lt_trans hab hbc)]
          · by_cases hbc2 : b = c
            · subst hbc2; rw [if_pos hab]
            · rw [if_neg hbc, if_neg hbc2] at h2; exact absurd h2 (by simp)
        · by_cases hab2 : a = b
          · subst hab2
            rw [if_neg hab, if_pos rfl] at h1
            by_cases hbc : a < c
            · rw [if_pos hbc]
            · by_cases hbc2 : a = c
              · subst hbc2
                rw [if_neg hbc, if_pos rfl] at h2 ⊢
                exact ih bs cs h1 h2
              · rw [if_neg hbc, if_neg hbc2] at h2; exact absurd h2 (by simp)
          · rw [if_neg hab, if_neg hab2] at h1; exact absurd h1 (by simp)

theorem sortStrings_perm (l : List String) : (sortStrings l).Perm l :=
  List.perm_insertionSort _ l

theorem sortStrings_pairwise (l : List String) :
    (sortStrings l).Pairwise (fun a b : String => pyStrLe a b = true) :=
  @List.sorted_insertionSort String (fun a b : String => pyStrLe a b = true) _
    ⟨fun a b => charListLe_total a.data b.data⟩
    ⟨fun a b c h1 h2 => charListLe_trans a.data b.data c.data h1 h2⟩ l

theorem mem_sortStrings {x : String} {l : List String} :
    x ∈ sortStrings l ↔ x ∈ l :=
  (sortStrings_perm l).mem_iff

theorem endsWithSlash_eq_false (s : String) (h : '/' ∉ s.data) :
    endsWithSlash s = false := by
  rw [endsWithSlash, beq_eq_false_iff_ne]
  intro he
  exact h (List.mem_of_mem_getLast? (Option.mem_def.mpr he))

theorem vars_name_no_slash (iso_path : String) :
    '/' ∉ ("OVMF_VARS_" ++ pyReplaceIso (basename iso_path) ++ ".fd").data := by
  simp only [String.data_append, List.mem_append, not_or]
  exact ⟨⟨by decide, pyReplaceIso_no_slash _ (basename_no_slash iso_path)⟩, by decide⟩

/-! ### Claim theorems -/

/-- Claim C1, counterexample. The claim's naming formula strips the medium's
extension from the base name; the source (lines 166, 168) instead deletes
every occurrence of the substring `.iso`, leaving any other extension in
place. At storage directory `/vms`, medium `/media/foo.img`, BIOS mode,
the code derives `/vms/foo.img.qcow2` while the claimed formula yields
`/vms/foo.qcow2`. -/
theorem c1_naming_formula_counterexample :
    disk_path "/vms" "/media/foo.img" false ≠
      "/vms" ++ "/" ++ specStripExt (basename "/media/foo.img") ++ ".qcow2" ∧
    disk_path "/vms" "/media/foo.img" false = "/vms/foo.img.qcow2" ∧
    "/vms" ++ "/" ++ specStripExt (basename "/media/foo.img") ++ ".qcow2" =
      "/vms/foo.qcow2" :=
  ⟨by decide, by decide, by decide⟩

/-- Claim C1, amended. For every storage directory (nonempty, without a
trailing separator) and every medium path and firmware mode, the derived
artifact paths follow the fixed naming formula with "extension stripped"
replaced by "every occurrence of the substring `.iso` removed": the disk
image is `storageDir + "/" + strippedBase + (".uefi" if UEFI) + ".qcow2"`
and the firmware variables file is
`storageDir + "/" + "OVMF_VARS_" + strippedBase + ".fd"`; the derivation
is a pure, deterministic function of the storage directory, the medium's
base name and the firmware mode, so identical inputs always yield
identical paths. -/
theorem c1_artifact_paths (d m : String) (u : Bool)
    (h1 : d ≠ "") (h2 : endsWithSlash d = false) :
    disk_path d m u =
      d ++ "/" ++ (pyReplaceIso (basename m) ++ (if u then ".uefi" else "") ++ ".qcow2") ∧
    vars_path d m = d ++ "/" ++ ("OVMF_VARS_" ++ pyReplaceIso (basename m) ++ ".fd") ∧
    (∀ m', basename m' = basename m →
      disk_path d m' u = disk_path d m u ∧ vars_path d m' = vars_path d m) := by
  refine ⟨?_, ?_, ?_⟩
  · rw [disk_path,
      pyJoin_eq d _ h1 h2 (startsWithSlash_eq_false _ (disk_name_no_slash m u)),
      disk_name]
  · rw [vars_path,
      pyJoin_eq d _ h1 h2 (startsWithSlash_eq_false _ (vars_name_no_slash m))]
  · intro m' hm
    constructor
    · rw [disk_path, disk_path, disk_name, disk_name, hm]
    · rw [vars_path, vars_path, hm]

/-- Witness for `c1_artifact_paths` at a concrete UEFI session. -/
theorem c1_artifact_paths_witness :
    (("/vms/ubuntu" : String) ≠ "" ∧ endsWithSlash "/vms/ubuntu" = false) ∧
    (disk_path "/vms/ubuntu" "/media/ubuntu-24.04.iso" true =
        "/vms/ubuntu" ++ "/" ++ (pyReplaceIso (basename "/media/ubuntu-24.04.iso") ++
          (if true then ".uefi" else "") ++ ".qcow2") ∧
      vars_path "/vms/ubuntu" "/media/ubuntu-24.04.iso" =
        "/vms/ubuntu" ++ "/" ++ ("OVMF_VARS_" ++
          pyReplaceIso (basename "/media/ubuntu-24.04.iso") ++ ".fd") ∧
      (∀ m', basename m' = basename "/media/ubuntu-24.04.iso" →
        disk_path "/vms/ubuntu" m' true =
          disk_path "/vms/ubuntu" "/media/ubuntu-24.04.iso" true ∧
        vars_path "/vms/ubuntu" m' =
          vars_path "/vms/ubuntu" "/media/ubuntu-24.04.iso")) :=
  ⟨⟨by decide, by decide⟩,
   c1_artifact_paths "/vms/ubuntu" "/media/ubuntu-24.04.iso" true (by decide) (by decide)⟩

/-- Claim C2. For every completed install-mode argument list (the medium path
being absolute, as the browser guarantees), the re-derived post-install
list (lines 227-228) removes every install-only argument and adds exactly
one `-boot order=c` pair: it equals the argument list run mode would build
from the same selections, and contains exactly one `-boot`. -/
theorem c2_rerun_equals_run_mode (v i : String) (u : Bool)
    (hiso : firstChar i = some '/') :
    new_args (installArgs v i u) i = runArgs v i u ∧
    (new_args (installArgs v i u) i).count "-boot" = 1 ∧
    (new_args (installArgs v i u) i).count "-cdrom" = 0 ∧
    (new_args (installArgs v i u) i).count "order=d" = 0 := by
  have hfil : rerunFilter i (installArgs v i u) = sessionArgs v i u := by
    rw [installArgs, rerunFilter_append, rerunFilter_sessionArgs v i u hiso]
    have htail : rerunFilter i ["-cdrom", i, "-boot", "order=d"] = [] := by
      simp [rerunFilter]
    rw [htail, List.append_nil]
  have hcount : ∀ x : String, x ∈ ["-cdrom", "order=d", "-boot"] →
      List.count x (sessionArgs v i u) = 0 := by
    intro x hx
    apply List.count_eq_zero.mpr
    intro hmem
    obtain ⟨k1, _, k3, k4⟩ := sessionArgs_ne v i u hiso x hmem
    simp only [List.mem_cons, List.not_mem_nil, or_false] at hx
    rcases hx with rfl | rfl | rfl
    · exact k1 rfl
    · exact k3 rfl
    · exact k4 rfl
  refine ⟨?_, ?_, ?_, ?_⟩
  · rw [new_args, hfil, runArgs]
  · rw [new_args, hfil, List.count_append, hcount "-boot" (by decide)]; rfl
  · rw [new_args, hfil, List.count_append, hcount "-cdrom" (by decide)]; rfl
  · rw [new_args, hfil, List.count_append, hcount "order=d" (by decide)]; rfl

/-- Witness for `c2_rerun_equals_run_mode` at a concrete BIOS session. -/
theorem c2_rerun_equals_run_mode_witness :
    firstChar "/media/a.iso" = some '/' ∧
    (new_args (installArgs "/vms" "/media/a.iso" false) "/media/a.iso" =
        runArgs "/vms" "/media/a.iso" false ∧
      (new_args (installArgs "/vms" "/media/a.iso" false) "/media/a.iso").count "-boot" = 1 ∧
      (new_args (installArgs "/vms" "/media/a.iso" false) "/media/a.iso").count "-cdrom" = 0 ∧
      (new_args (installArgs "/vms" "/media/a.iso" false) "/media/a.iso").count "order=d" = 0) :=
  ⟨by decide, c2_rerun_equals_run_mode "/vms" "/media/a.iso" false (by decide)⟩

/-- Claim C3. Exit statuses: cancelling the medium-selection or the
storage-directory-selection prompt exits neutrally (code 0) with no
filesystem effects; a selected medium that is not an existing regular file
exits with failure (code 1); cancelling the operating-mode menu exits
with failure; run mode with no disk image at the derived path exits with
failure. -/
theorem c3_exit_codes (env : Env) :
    (env.isoSelection = none → main env = ([], .exit 0)) ∧
    (∀ iso_path, env.isoSelection = some iso_path → iso_path ≠ "" →
      env.isoIsFile = false → main env = ([], .exit 1)) ∧
    (∀ iso_path, env.isoSelection = some iso_path → iso_path ≠ "" →
      env.isoIsFile = true → env.dirSelection = none → main env = ([], .exit 0)) ∧
    (∀ iso_path vm_dir, env.isoSelection = some iso_path → iso_path ≠ "" →
      env.isoIsFile = true → env.dirSelection = some vm_dir → vm_dir ≠ "" →
      env.modeSelection = none → main env = ([Effect.makedirs vm_dir], .exit 1)) ∧
    (∀ iso_path vm_dir, env.isoSelection = some iso_path → iso_path ≠ "" →
      env.isoIsFile = true → env.dirSelection = some vm_dir → vm_dir ≠ "" →
      env.modeSelection = some "run" → env.diskExists = false →
      main env = ([Effect.makedirs vm_dir], .exit 1)) := by
  refine ⟨?_, ?_, ?_, ?_, ?_⟩
  · intro h; simp [main, h]
  · intro iso h1 h2 h3; simp [main, h1, h2, h3]
  · intro iso h1 h2 h3 h4; simp [main, h1, h2, h3, h4]
  · intro iso d h1 h2 h3 h4 h5 h6; simp [main, h1, h2, h3, h4, h5, h6]
  · intro iso d h1 h2 h3 h4 h5 h6 h7; simp [main, h1, h2, h3, h4, h5, h6, h7]

/-- Witness for `c3_exit_codes`: a session cancelled at medium selection
and a run-mode session with no installed disk. -/
theorem c3_exit_codes_witness :
    main ⟨none, true, none, false, none, false, false, false, false⟩ = ([], .exit 0) ∧
    main ⟨some "/i.iso", true, some "/d", false, some "run", false, false, false, false⟩ =
      ([Effect.makedirs "/d"], .exit 1) :=
  ⟨(c3_exit_codes _).1 rfl,
   (c3_exit_codes _).2.2.2.2 "/i.iso" "/d" rfl (by decide) rfl rfl (by decide) rfl rfl⟩

/-- Claim C4. Install mode (lines 189-207): with an existing disk, a declined
overwrite aborts with exit 1 and no file mutation (only the earlier
`makedirs` on the already-selected directory); otherwise the existing disk
is removed (when present), a 20G qcow2 image is created at the disk path,
under UEFI any existing variables file is removed and the template copied
in, and the launch arguments end with the medium as optical drive
(`-cdrom`) and optical-first boot order (`-boot order=d`). -/
theorem c4_install_mode (env : Env) (iso_path vm_dir : String)
    (h1 : env.isoSelection = some iso_path) (h2 : iso_path ≠ "")
    (h3 : env.isoIsFile = true) (h4 : env.dirSelection = some vm_dir)
    (h5 : vm_dir ≠ "") (h6 : env.modeSelection = some "install") :
    (env.diskExists = true → env.overwriteAnswer = false →
      main env = ([Effect.makedirs vm_dir], .exit 1)) ∧
    (env.diskExists = false ∨ env.overwriteAnswer = true →
      main env =
        ([Effect.makedirs vm_dir] ++
         (if env.diskExists then
            [Effect.removeFile (disk_path vm_dir iso_path env.uefiAnswer)]
          else []) ++
         [Effect.createQcow2 (disk_path vm_dir iso_path env.uefiAnswer) "20G"] ++
         (if env.uefiAnswer then
            (if env.varsExists then [Effect.removeFile (vars_path vm_dir iso_path)] else []) ++
            [Effect.copyFile OVMF_VARS_TEMPLATE (vars_path vm_dir iso_path)]
          else []),
         .launched (installArgs vm_dir iso_path env.uefiAnswer)
           (if env.rerunAnswer then
              some (new_args (installArgs vm_dir iso_path env.uefiAnswer) iso_path)
            else none))) := by
  constructor
  · intro hd ho; simp [main, h1, h2, h3, h4, h5, h6, hd, ho]
  · intro h
    rcases h with hd | ho
    · simp [main, installArgs, h1, h2, h3, h4, h5, h6, hd]
    · rcases hdisk : env.diskExists with _ | _ <;>
        simp [main, installArgs, h1, h2, h3, h4, h5, h6, hdisk, ho]

/-- Witness for `c4_install_mode`: a fresh BIOS install session. -/
theorem c4_install_mode_witness :
    main ⟨some "/i.iso", true, some "/d", false, some "install", false, false, false, false⟩ =
      ([Effect.makedirs "/d", Effect.createQcow2 (disk_path "/d" "/i.iso" false) "20G"],
       .launched (installArgs "/d" "/i.iso" false) none) := by
  simpa using
    (c4_install_mode ⟨some "/i.iso", true, some "/d", false, some "install",
        false, false, false, false⟩ "/i.iso" "/d" rfl (by decide) rfl rfl (by decide) rfl).2
      (Or.inl rfl)

/-- Claim C5. Run mode (lines 209-215): when no file exists at the derived
disk path the session aborts with exit code 1 — no file mutation beyond
the earlier `makedirs`, no launch, and the abort outcome carries no
backend argument list; when the disk exists, the launch arguments end with
the single disk-first boot-order pair `-boot order=c`. -/
theorem c5_run_mode (env : Env) (iso_path vm_dir : String)
    (h1 : env.isoSelection = some iso_path) (h2 : iso_path ≠ "")
    (h3 : env.isoIsFile = true) (h4 : env.dirSelection = some vm_dir)
    (h5 : vm_dir ≠ "") (h6 : env.modeSelection = some "run") :
    (env.diskExists = false →
      main env = ([Effect.makedirs vm_dir], .exit 1)) ∧
    (env.diskExists = true →
      main env = ([Effect.makedirs vm_dir],
        .launched (runArgs vm_dir iso_path env.uefiAnswer) none)) := by
  constructor
  · intro hd; simp [main, h1, h2, h3, h4, h5, h6, hd]
  · intro hd; simp [main, runArgs, h1, h2, h3, h4, h5, h6, hd]

/-- Witness for `c5_run_mode`: run mode without and with an installed
disk. -/
theorem c5_run_mode_witness :
    main ⟨some "/i.iso", true, some "/d", false, some "run", false, false, false, false⟩ =
      ([Effect.makedirs "/d"], .exit 1) ∧
    main ⟨some "/i.iso", true, some "/d", false, some "run", true, false, false, false⟩ =
      ([Effect.makedirs "/d"],
       .launched (runArgs "/d" "/i.iso" false) none) :=
  ⟨(c5_run_mode _ "/i.iso" "/d" rfl (by decide) rfl rfl (by decide) rfl).1 rfl,
   (c5_run_mode _ "/i.iso" "/d" rfl (by decide) rfl rfl (by decide) rfl).2 rfl⟩

/-- Claim C6. Every directory listing's choice list is ordered as: the
select-this-directory marker tagged `.` (present exactly when
directory-select mode is on), then the go-up marker tagged `..`, then the
directory entries — lexicographically sorted, each tagged with a trailing
path separator — then the file entries, lexicographically sorted
(lines 104-118). -/
theorem c6_choice_ordering (select_dir : Bool) (dirs files : List String) (p : String) :
    ∃ ds fs : List String,
      ds.Perm dirs ∧ fs.Perm files ∧
      ds.Pairwise (fun a b => pyStrLe a b = true) ∧
      fs.Pairwise (fun a b => pyStrLe a b = true) ∧
      browse_path_choices select_dir dirs files p =
        (if select_dir then
          [(".", "--> SELECT THIS DIRECTORY: " ++ p ++ " <--")]
         else []) ++
        [("..", "../ (Go Up)")] ++
        ds.map (fun d => (d ++ "/", "(Dir)")) ++
        fs.map (fun f => (f, "(File)")) :=
  ⟨sortStrings dirs, sortStrings files,
   sortStrings_perm dirs, sortStrings_perm files,
   sortStrings_pairwise dirs, sortStrings_pairwise files, rfl⟩

/-- Claim C7. A `PermissionError` from listing the current directory never
terminates the browser: the step surfaces a notice and continues at the
parent directory, so the loop's eventual result is whatever the remaining
interaction produces from the parent (lines 96-102). -/
theorem c7_permission_recovery (select_dir : Bool) (p : String)
    (rest : List BrowseInput) :
    browse_path_step select_dir p .permissionDenied = .next (dirname p) ∧
    browse_path_loop select_dir p (.permissionDenied :: rest) =
      browse_path_loop select_dir (dirname p) rest :=
  ⟨rfl, rfl⟩

/-- Claim C8. The session's behaviour factors exactly through a pure
Invocation Builder: once the selections are gathered, the filesystem
effects and launch arguments are precisely the plan computed by the pure
function `specBuild` (the builder as section 4.4 words it, whose output is
data — it mutates nothing), executed in order after the orchestrator's
`makedirs`; an aborting build performs no file mutation and no launch. -/
theorem c8_builder_runner_split (env : Env) (iso_path vm_dir : String)
    (h1 : env.isoSelection = some iso_path) (h2 : iso_path ≠ "")
    (h3 : env.isoIsFile = true) (h4 : env.dirSelection = some vm_dir)
    (h5 : vm_dir ≠ "") :
    (env.modeSelection = some "install" →
      main env =
        (specBuild iso_path vm_dir env.uefiAnswer true
            env.diskExists env.varsExists env.overwriteAnswer).elim
          ([Effect.makedirs vm_dir], Outcome.exit 1)
          (fun plan => (Effect.makedirs vm_dir :: plan.1,
            Outcome.launched plan.2
              (if env.rerunAnswer then some (new_args plan.2 iso_path) else none)))) ∧
    (env.modeSelection = some "run" →
      main env =
        (specBuild iso_path vm_dir env.uefiAnswer false
            env.diskExists env.varsExists env.overwriteAnswer).elim
          ([Effect.makedirs vm_dir], Outcome.exit 1)
          (fun plan => (Effect.makedirs vm_dir :: plan.1,
            Outcome.launched plan.2 none))) := by
  constructor
  · intro h6
    rcases hdisk : env.diskExists with _ | _
    · simp [main, specBuild, installArgs, h1, h2, h3, h4, h5, h6, hdisk]
    · rcases hover : env.overwriteAnswer with _ | _ <;>
        simp [main, specBuild, installArgs, h1, h2, h3, h4, h5, h6, hdisk, hover]
  · intro h6
    rcases hdisk : env.diskExists with _ | _ <;>
      simp [main, specBuild, runArgs, h1, h2, h3, h4, h5, h6, hdisk]

/-- Witness for `c8_builder_runner_split`: a UEFI overwrite-install
session. -/
theorem c8_builder_runner_split_witness :
    main ⟨some "/i.iso", true, some "/d", true, some "install", true, true, true, true⟩ =
      (specBuild "/i.iso" "/d" true true true true true).elim
        ([Effect.makedirs "/d"], Outcome.exit 1)
        (fun plan => (Effect.makedirs "/d" :: plan.1,
          Outcome.launched plan.2 (if true then some (new_args plan.2 "/i.iso") else none))) :=
  (c8_builder_runner_split ⟨some "/i.iso", true, some "/d", true, some "install",
      true, true, true, true⟩ "/i.iso" "/d" rfl (by decide) rfl rfl (by decide)).1 rfl

/-- Claim C9. Every prompt wrapper maps a non-zero (cancel) renderer exit to
the cancelled sentinel (`none`) — as total functions they never raise —
except `dialog_yesno`, which collapses cancellation into `false`;
consequently a cancelled firmware-mode prompt behaves exactly as an
explicit BIOS choice in the whole session. -/
theorem c9_cancel_mapping (r : RendererExit) (h : r.returncode ≠ 0) :
    dialog_input r = none ∧ dialog_fselect r = none ∧ dialog_dselect r = none ∧
    dialog_menu r = none ∧ dialog_yesno r = false ∧
    (∀ env : Env, main { env with uefiAnswer := dialog_yesno r } =
      main { env with uefiAnswer := false }) := by
  have hy : dialog_yesno r = false := by simp [dialog_yesno, h]
  exact ⟨by simp [dialog_input, h], by simp [dialog_fselect, h],
    by simp [dialog_dselect, h], by simp [dialog_menu, h], hy,
    fun env => by rw [hy]⟩

/-- Witness for `c9_cancel_mapping` at the renderer's ESC exit code. -/
theorem c9_cancel_mapping_witness :
    (255 : Nat) ≠ 0 ∧
    (dialog_input ⟨255, ""⟩ = none ∧ dialog_fselect ⟨255, ""⟩ = none ∧
      dialog_dselect ⟨255, ""⟩ = none ∧ dialog_menu ⟨255, ""⟩ = none ∧
      dialog_yesno ⟨255, ""⟩ = false ∧
      (∀ env : Env, main { env with uefiAnswer := dialog_yesno ⟨255, ""⟩ } =
        main { env with uefiAnswer := false })) :=
  ⟨by decide, c9_cancel_mapping ⟨255, ""⟩ (by decide)⟩

/-- Claim C10. Entries that are neither regular files nor directories are
omitted from the choice list (they never appear as a tag), and in
file-select mode a terminating selection always returns the joined path of
an entry that was listed as a regular file (lines 112-118, 130-138). The
side conditions mirror what `os.listdir` guarantees: entry names contain
no separator and are never `.` or `..`. -/
theorem c10_non_regular_entries (select_dir : Bool) (isDir isFile : String → Bool)
    (items : List String) (p : String) :
    (∀ e ∈ items, isDir e = false → isFile e = false → '/' ∉ e.data →
      e ≠ "." → e ≠ ".." →
      e ∉ (browse_path_choices select_dir (items.filter isDir)
            (items.filter isFile) p).map Prod.fst) ∧
    (∀ sel path,
      (∀ f ∈ items.filter isFile, '/' ∉ f.data ∧ f ≠ "." ∧ f ≠ "..") →
      sel ∈ (browse_path_choices false (items.filter isDir)
              (items.filter isFile) p).map Prod.fst →
      browse_path_step false p
          (.listing (items.filter isDir) (items.filter isFile) (some sel)) =
        .done (some path) →
      ∃ f, f ∈ items ∧ isFile f = true ∧ sel = f ∧ path = pyJoin p f) := by
  constructor
  · intro e he hd hf hs hdot hdotdot hmem
    cases select_dir <;>
      simp only [browse_path_choices, List.map_append, List.mem_append,
        List.map_cons, List.map_nil, List.mem_cons, List.not_mem_nil,
        List.mem_map, mem_sortStrings, List.mem_filter,
        Bool.false_eq_true, reduceIte, List.nil_append, or_false, false_or,
        exists_exists_and_eq_and, exists_eq_right] at hmem
    · rcases hmem with (rfl | ⟨d, ⟨hd2a, hd2b⟩, hde⟩) | ⟨-, hFile⟩
      · exact hdotdot rfl
      · apply hs
        rw [← hde, String.data_append]
        exact List.mem_append.mpr (Or.inr (by decide))
      · rw [hf] at hFile
        exact Bool.false_ne_true hFile
    · rcases hmem with ((rfl | rfl) | ⟨d, ⟨hd2a, hd2b⟩, hde⟩) | ⟨-, hFile⟩
      · exact hdot rfl
      · exact hdotdot rfl
      · apply hs
        rw [← hde, String.data_append]
        exact List.mem_append.mpr (Or.inr (by decide))
      · rw [hf] at hFile
        exact Bool.false_ne_true hFile
  · intro sel path hfiles hmem hstep
    simp only [browse_path_choices, List.map_append, List.mem_append,
      List.map_cons, List.map_nil, List.mem_cons, List.not_mem_nil,
      List.mem_map, mem_sortStrings, List.mem_filter,
      Bool.false_eq_true, reduceIte, List.nil_append, or_false, false_or,
      exists_exists_and_eq_and, exists_eq_right] at hmem
    rcases hmem with (rfl | ⟨d, ⟨hd2a, hd2b⟩, hde⟩) | ⟨hmem2, hFile⟩
    · rw [show browse_path_step false p
          (.listing (items.filter isDir) (items.filter isFile) (some "..")) =
          .next (dirname p) from rfl] at hstep
      exact StepResult.noConfusion hstep
    · have hlast : sel.data.getLast? = some '/' := by
        rw [← hde, String.data_append]
        exact List.getLast?_concat _
      have hne1 : sel ≠ "." := by
        intro h
        rw [h] at hlast
        exact absurd hlast (by decide)
      have hne2 : sel ≠ ".." := by
        intro h
        rw [h] at hlast
        exact absurd hlast (by decide)
      have hes : endsWithSlash sel = true := by
        unfold endsWithSlash
        rw [hlast]
        rfl
      simp [browse_path_step, hne1, hne2, hes] at hstep
    · obtain ⟨hnos, hne1, hne2⟩ := hfiles sel (List.mem_filter.mpr ⟨hmem2, hFile⟩)
      have hes : endsWithSlash sel = false := endsWithSlash_eq_false sel hnos
      simp only [browse_path_step, hne1, hne2, hes, Bool.false_eq_true,
        ite_false, reduceIte, if_neg, StepResult.done.injEq,
        Option.some.injEq] at hstep
      exact ⟨sel, hmem2, hFile, rfl, hstep.symm⟩

/-- Witness for `c10_non_regular_entries`: a listing with a socket-like
entry `sock` that is neither file nor directory, and a file selection. -/
theorem c10_non_regular_entries_witness :
    ("sock" ∉ (browse_path_choices false
        (["sock", "b.txt", "a"].filter (fun s => s == "a"))
        (["sock", "b.txt", "a"].filter (fun s => s == "b.txt")) "/r").map Prod.fst) ∧
    (∃ f, f ∈ ["sock", "b.txt", "a"] ∧ (fun s : String => s == "b.txt") f = true ∧
      ("b.txt" : String) = f ∧ pyJoin "/r" "b.txt" = pyJoin "/r" f) :=
  ⟨(c10_non_regular_entries false (fun s => s == "a") (fun s => s == "b.txt")
      ["sock", "b.txt", "a"] "/r").1 "sock" (by decide) (by decide) (by decide)
      (by decide) (by decide) (by decide),
   (c10_non_regular_entries false (fun s => s == "a") (fun s => s == "b.txt")
      ["sock", "b.txt", "a"] "/r").2 "b.txt" (pyJoin "/r" "b.txt")
      (by decide) (by decide) (by decide)⟩

end SpinVM
